import Mathlib

/-!
Shallow embedding of `src/commons/genetics.py` (freeREA): the `Individual`
candidate class, the `Genetic` operator set, the `Population` container and
the module-level `generate_population` function.

External collaborators (the NATS search-space oracle, the genotype/architecture
translators and the fitness metric) are modelled as explicit function
parameters, per the spec's external-interface section.  Randomness is modelled
by explicit streams of draws passed as parameters.  Python floats are modelled
as rationals: every claim below is about control flow and exact comparisons
(`max - min == 0`), not about rounding.

Python exceptions are modelled with `Except`: an operation that raises returns
`Except.error e` for the corresponding error kind.  Statements of the source
that construct an exception object without `raise`-ing it (line 48 of the
source) are modelled as discarded values, which is what CPython does.
-/

namespace Genetics

/-- Gene symbols are strings (NATS operation names). -/
abbrev Gene := String

/-- Architecture description strings, opaque to the engine. -/
abbrev Arch := String

/-- The model artifact (`TinyNetwork`) is opaque to the engine; we model it as
a bare handle. -/
abbrev Net := Nat

/-- Python exception kinds that the code in `genetics.py` can raise. -/
inductive Err where
  /-- calling a non-callable object, e.g. `mutant_individual.update_genotype(...)`
  where `update_genotype` is a property whose getter returns the genotype list -/
  | typeErrorNotCallable
  /-- subscripting a non-subscriptable object, e.g. `individual2[locus:]`
  where `Individual` defines no `__getitem__` -/
  | typeErrorNotSubscriptable
  /-- `raise ValueError("Number of individuals cannot be different from 2!")` -/
  | valueErrorArity
  /-- `np.random.randint(low=0, high=0)` on an empty genotype -/
  | valueErrorRandint
  /-- `np.random.choice` on an empty population -/
  | valueErrorEmptySample
  /-- the `ValueError` constructed (but never raised) by the genotype setter -/
  | valueErrorValidation
  /-- `raise ValueError("new_population is not an Iterable of Individual datatype!")` -/
  | valueErrorNotIndividual
  /-- `getattr` on a missing attribute -/
  | attributeError
  /-- float division by zero -/
  | zeroDivisionError
  /-- `sorted_population[0]` on an empty population -/
  | indexError
  /-- a failure propagated from an externally supplied fitness metric -/
  | metricError
deriving DecidableEq, Repr

/-- The `Individual` class (lines 12–67).  `scores` models the dynamically
attached named numeric attributes read and written with `getattr`/`setattr`
(spec §9 recommends exactly this explicit-mapping model).  The
`searchspace_interface` field is modelled by passing the oracle functions
explicitly to the operations that use them. -/
structure Individual where
  net : Net
  genotype : List Gene
  age : Nat := 0
  fitness : Rat := 0
  rank : Nat := 0
  scores : List (String × Rat) := []
deriving DecidableEq, Repr

instance : Inhabited Individual := ⟨{ net := 0, genotype := [] }⟩

/-- Python `getattr(individual, score)` for a dynamically attached score:
`none` models an `AttributeError`. -/
def getScore (ind : Individual) (s : String) : Option Rat :=
  (ind.scores.find? (fun p => p.1 == s)).map (fun p => p.2)

/-- Python `setattr(individual, score, v)` for a dynamically attached score. -/
def setScore (ind : Individual) (s : String) (v : Rat) : Individual :=
  if (ind.scores.find? (fun p => p.1 == s)).isSome then
    { ind with scores := ind.scores.map (fun p => if p.1 == s then (s, v) else p) }
  else
    { ind with scores := ind.scores ++ [(s, v)] }

/-- Lines 34–37, `Individual.update_net`: overwrites the `net` field by
translating the genotype to an architecture string and querying the oracle. -/
def Individual.update_net (toArch : List Gene → Arch) (oracle : Arch → Net)
    (ind : Individual) : Individual :=
  { ind with net := oracle (toArch ind.genotype) }

/-- Lines 43–51, the genotype setter `update_genotype`.  The sanity check on
line 47 evaluates `genotype_is_valid` and, when it is false, CONSTRUCTS a
`ValueError` on line 48 but never raises it (the `raise` keyword is missing),
so the constructed exception is discarded and the setter proceeds
unconditionally: it overwrites the genotype and refreshes the net. -/
def Individual.update_genotype (valid : List Gene → Bool) (toArch : List Gene → Arch)
    (oracle : Arch → Net) (ind : Individual) (new_genotype : List Gene) :
    Except Err Individual :=
  let _unraised : Option Err :=
    if valid new_genotype then none else some Err.valueErrorValidation
  Except.ok (Individual.update_net toArch oracle { ind with genotype := new_genotype })

/-- Lines 57–59, `Individual.update_fitness`: sets fitness to the metric of the
net; a metric failure propagates. -/
def Individual.update_fitness (ind : Individual) (metric : Net → Except Err Rat) :
    Except Err Individual :=
  (metric ind.net).map (fun v => { ind with fitness := v })

/-- Lines 65–67, `Individual.update_ranking`: plain setter for the rank. -/
def Individual.update_ranking (ind : Individual) (new_rank : Nat) : Individual :=
  { ind with rank := new_rank }

/-- The `Genetic` operator-set class (lines 69–132).  The genome set is kept as
a list of genes (Python builds `set(genome)`; the claims below never depend on
deduplication). -/
structure Genetic where
  genome : List Gene
  strategy : String := "comma"
  tournament_size : Nat := 5
  cross_probability : Rat := (1 : Rat) / 2

/-- Lines 82–84, `Genetic.tournament`:
`np.random.choice(a=population, size=self.tournament_size).tolist()` samples
with replacement; it raises on an empty population.  The random draws are an
explicit stream of numbers, reduced modulo the population size. -/
def Genetic.tournament (g : Genetic) (population : List Individual)
    (draws : Nat → Nat) : Except Err (List Individual) :=
  if h : population.length = 0 then
    Except.error Err.valueErrorEmptySample
  else
    Except.ok ((List.range g.tournament_size).map (fun i =>
      population.get ⟨draws i % population.length,
        Nat.mod_lt _ (Nat.pos_of_ne_zero h)⟩))

/-- Python `set.difference(iterable)` as called on line 107:
`self.genome.difference(mutant_gene)` passes the gene STRING as the iterable,
so it removes from the genome the one-character strings of the gene, not the
gene itself.  (The intended call would have been `difference({mutant_gene})`.) -/
def setDifferenceChars (genome : List Gene) (gene : Gene) : List Gene :=
  genome.filter (fun g => !(gene.toList.map (fun c => String.singleton c)).contains g)

/-- Lines 97–111, `Genetic.mutate`.  The loop mutates the deep copy's genotype
list in place; we model the loop faithfully (with explicit random streams for
the locus and the gene pick) and then the return statement:
`mutant_individual.update_genotype(new_genotype=...)` reads the
`update_genotype` PROPERTY (whose getter returns the genotype list) and then
calls that list, which raises `TypeError: 'list' object is not callable`, so
the computed mutant is discarded and the call never returns an individual.
(Two further slips inside the loop, noted in comments, are modelled
generously because execution aborts regardless.) -/
def Genetic.mutate (g : Genetic) (individual : Individual) (n_loci : Nat := 1)
    (loci : Nat → Nat) (pick : Nat → Nat) : Except Err Individual :=
  let L := individual.genotype.length
  if L = 0 then
    -- np.random.randint(low=0, high=0) raises ValueError
    Except.error Err.valueErrorRandint
  else
    let step : List Gene → Nat → List Gene := fun geno k =>
      let mutant_locus := loci k % L
      let mutant_gene := geno.getD mutant_locus ""
      let mutations := setDifferenceChars g.genome mutant_gene
      -- np.random.choice(a=mutations, size=1): NumPy rejects a set argument and
      -- would return a one-element ARRAY, not a gene; modelled generously as
      -- picking one element of the pool.
      let new_gene := mutations.getD (pick k % mutations.length) mutant_gene
      geno.set mutant_locus new_gene
    let _mutant_genotype := (List.range n_loci).foldl step individual.genotype
    Except.error Err.typeErrorNotCallable

/-- Lines 113–132, `Genetic.recombine`.  After the arity check and the random
draws, both branches of the crossover slice the second parent OBJECT
(`individual2[recombination_locus:]` / `individual1[recombination_locus:]`)
rather than its genotype; `Individual` defines no `__getitem__`, so evaluating
the arguments of `chain` raises `TypeError` and no recombinant is produced. -/
def Genetic.recombine (g : Genetic) (individuals : List Individual)
    (n_parts : Nat := 2) (locusDraw : Nat) (realization : Rat) :
    Except Err Individual :=
  if individuals.length ≠ 2 then
    Except.error Err.valueErrorArity
  else
    match individuals with
    | individual1 :: _ =>
      if individual1.genotype.length = 0 then
        -- np.random.randint(low=0, high=0) raises ValueError
        Except.error Err.valueErrorRandint
      else
        let _recombination_locus := locusDraw % individual1.genotype.length
        let _realization := realization
        let _n_parts := n_parts
        let _cross_p := g.cross_probability
        Except.error Err.typeErrorNotSubscriptable
    | [] => Except.error Err.valueErrorArity

/-- The `Population` class (lines 134–234) for an already-constructed member
list.  `extremes` models the dynamically created `min_<score>`/`max_<score>`
attribute pairs written by `set_extremes`. -/
structure Population where
  members : List Individual
  extremes : List (String × Rat × Rat) := []
deriving DecidableEq, Repr

/-- Python `getattr(self, "min_score"), getattr(self, "max_score")`: `none`
models the `AttributeError` of a not-yet-cached pair of extremes. -/
def getExtremes (pop : Population) (s : String) : Option (Rat × Rat) :=
  (pop.extremes.find? (fun p => p.1 == s)).map (fun p => p.2)

/-- Python `setattr(self, "max_score", ...)` and `setattr(self, "min_score", ...)`
performed together by `set_extremes`. -/
def setExtreme (pop : Population) (s : String) (mn mx : Rat) : Population :=
  { pop with extremes := (s, mn, mx) :: pop.extremes.filter (fun p => !(p.1 == s)) }

/-- Lines 151–157, `Population.update_population`: in the typed model every
member is an `Individual`, so the `isinstance` validation always passes and
the member list is replaced wholesale. -/
def Population.update_population (pop : Population) (new_population : List Individual) :
    Population :=
  { pop with members := new_population }

/-- Left-to-right effectful map: models a Python list comprehension / `list(map ...)`
in which the first raised exception aborts the whole construction. -/
def mapExcept (f : α → Except Err β) : List α → Except Err (List β)
  | [] => Except.ok []
  | x :: xs => do
    let y ← f x
    let ys ← mapExcept f xs
    Except.ok (y :: ys)

/-- Comparison key for `sorted(..., key=lambda individual: individual.fitness,
reverse=True)` over index-tagged members: CPython's `sorted` is stable, and
with `reverse=True` equal-key elements keep their input order, which is
exactly a stable merge sort under this boolean relation. -/
def fitnessDescKey (a b : Nat × Individual) : Bool :=
  decide (b.2.fitness ≤ a.2.fitness)

/-- Position of the member with original index `i` in the sorted list: models
writing `enumerate` positions back through the object identities of the sorted
member objects. -/
def rankOf : List (Nat × Individual) → Nat → Nat
  | [], _ => 0
  | p :: s, i => if p.1 = i then 0 else rankOf s i + 1

/-- The `sorted_individuals` list of `update_ranking` (line 165):
`sorted(self._population, key=lambda individual: individual.fitness,
reverse=True)` is a stable descending sort of the member objects; object
identity is modelled by tagging each member with its original index. -/
def rankedSort (pop : Population) : List (Nat × Individual) :=
  (pop.members.enum).mergeSort fitnessDescKey

/-- Lines 163–169, `Population.update_ranking`: stable-sorts the member objects
descending by fitness and assigns each object its 0-based position in that
order as rank (the write-back through object identity is the write-back
through the original index). -/
def Population.update_ranking (pop : Population) : Population :=
  { pop with
    members := pop.members.enum.map (fun p =>
      Individual.update_ranking p.2 (rankOf (rankedSort pop) p.1)) }

/-- Lines 171–174, the member loop of `Population.update_fitness`: each member
is updated in place, in order; the first metric failure aborts the loop with
the earlier members already carrying their new fitness. -/
def update_fitness_loop (metric : Net → Except Err Rat) :
    List Individual → List Individual × Option Err
  | [] => ([], none)
  | ind :: rest =>
    match ind.update_fitness metric with
    | Except.ok ind' =>
      let r := update_fitness_loop metric rest
      (ind' :: r.1, r.2)
    | Except.error e => (ind :: rest, some e)

/-- Lines 171–174, `Population.update_fitness`: the pair returned is the member
list as left behind by the loop together with the propagated metric failure,
if any. -/
def Population.update_fitness (pop : Population) (metric : Net → Except Err Rat) :
    Population × Option Err :=
  let r := update_fitness_loop metric pop.members
  ({ pop with members := r.1 }, r.2)

/-- Lines 194–201, `Population.set_extremes`: sorts the members ascending by
the named score (evaluating the `getattr` key on every member, so a member
without the attribute raises `AttributeError` out of `sorted`), then stores the
first and last values as `min_<score>` and `max_<score>`. -/
def Population.set_extremes (pop : Population) (score : String) : Except Err Population := do
  let vals ← mapExcept (fun m =>
    match getScore m score with
    | some v => Except.ok v
    | none => Except.error Err.attributeError) pop.members
  let sortedVals := vals.mergeSort (fun a b => decide (a ≤ b))
  match sortedVals.head?, sortedVals.getLast? with
  | some mn, some mx => Except.ok (setExtreme pop score mn mx)
  | _, _ => Except.error Err.indexError

/-- Lines 214–218, the inner `minmax_individual` of `normalize_scores`: returns
a copy of the individual with the named score min–max rescaled.  Python float
division raises `ZeroDivisionError` when `max_value - min_value` is zero. -/
def minmax_individual (score : String) (mn mx : Rat) (individual : Individual) :
    Except Err Individual :=
  match getScore individual score with
  | none => Except.error Err.attributeError
  | some v =>
    if mx - mn = 0 then Except.error Err.zeroDivisionError
    else Except.ok (setScore individual score ((v - mn) / (mx - mn)))

/-- The body of the `try` block of `normalize_scores` once the extremes have
been read: maps `minmax_individual` over (deep copies of) the members; on
`inplace=True` the new list replaces the population and `None` is returned,
otherwise the new list is returned and the population is left alone. -/
def normalize_scores_cached (pop : Population) (score : String) (inplace : Bool)
    (mn mx : Rat) : Except Err (Population × Option (List Individual)) := do
  let new_population ← mapExcept (minmax_individual score mn mx) pop.members
  if inplace then
    Except.ok (pop.update_population new_population, none)
  else
    Except.ok (pop, some new_population)

/-- Lines 204–234, `Population.normalize_scores`.  When the extremes are not
yet cached, the first `getattr` raises `AttributeError`, the handler runs
`set_extremes` and then re-invokes `self.normalize_scores(score)` WITHOUT
passing `inplace` — so the recursive call runs with the default
`inplace=True` — and discards its return value, making the outer call return
`None`.  The recursion is unrolled here: after `set_extremes` the extremes
lookup necessarily succeeds, so the recursion has depth exactly one (the last
match arm is unreachable because `setExtreme` always stores the pair). -/
def Population.normalize_scores (pop : Population) (score : String)
    (inplace : Bool := true) : Except Err (Population × Option (List Individual)) :=
  match getExtremes pop score with
  | some (mn, mx) => normalize_scores_cached pop score inplace mn mx
  | none => do
    let pop' ← pop.set_extremes score
    match getExtremes pop' score with
    | some (mn, mx) => do
      let r ← normalize_scores_cached pop' score true mn mx
      Except.ok (r.1, none)
    | none => Except.error Err.attributeError

/-- Lines 237–246, module-level `generate_population`: asks the oracle for 20
sample pairs, translates each cell description to a genotype, and zips nets
with genotypes into individuals (the population size is whatever the zip
yields). -/
def generate_population (oracle : Nat → List Net × List Arch)
    (archToGeno : Arch → List Gene) : List Individual :=
  let architectures := (oracle 20).1
  let cells := (oracle 20).2
  let genotypes := cells.map archToGeno
  (architectures.zip genotypes).map (fun p => { net := p.1, genotype := p.2 })

/-- The Python value passed as (and stored by) `Population.__init__`'s
`init_population` parameter, annotated `Union[bool, Iterable]`. -/
inductive InitPopulation where
  | bool (b : Bool)
  | coll (l : List Individual)
deriving DecidableEq, Repr

/-- Python truthiness of an `init_population` value: `False` and the empty
collection are falsy. -/
def InitPopulation.truthy : InitPopulation → Bool
  | InitPopulation.bool b => b
  | InitPopulation.coll l => !l.isEmpty

/-- Lines 135–141, `Population.__init__`: `if init_population:` tests Python
truthiness.  The truthy branch generates a fresh population from the oracle —
thereby IGNORING a non-empty caller-supplied collection — and the falsy branch
stores the falsy value itself (`False` or an empty collection) as
`self._population`, without any membership check. -/
def population_init (oracle : Nat → List Net × List Arch)
    (archToGeno : Arch → List Gene) (init_population : InitPopulation) :
    InitPopulation :=
  if init_population.truthy then
    InitPopulation.coll (generate_population oracle archToGeno)
  else
    init_population

/-! ### Concrete fixtures used to instantiate the theorems below -/

/-- A validity check accepting exactly the genotypes of length 2. -/
def validLen2 : List Gene → Bool := fun g => g.length == 2

/-- A concrete genotype-to-architecture translator. -/
def toArchJoin : List Gene → Arch := fun g => String.join g

/-- A concrete oracle resolving an architecture string to a net handle. -/
def oracleLen : Arch → Net := fun a => a.length

/-- A parent with a length-1 genotype. -/
def parentShort : Individual := { net := 0, genotype := ["a"] }

/-- A parent with a length-2 genotype. -/
def parentLong : Individual := { net := 1, genotype := ["b", "c"] }

/-- A member whose net the fixture metric accepts. -/
def indNet0 : Individual := { net := 0, genotype := ["a"] }

/-- A member whose net the fixture metric rejects. -/
def indNet1 : Individual := { net := 1, genotype := ["b"] }

/-- A metric that succeeds on net 0 and fails on every other net. -/
def metricFail1 : Net → Except Err Rat := fun n =>
  if n = 0 then Except.ok 7 else Except.error Err.metricError

/-- A fixed sampling oracle returning one net/description pair. -/
def oracleFixed : Nat → List Net × List Arch := fun _ => ([7], ["cell"])

/-- A fixed description-to-genotype translator. -/
def archToGenoFixed : Arch → List Gene := fun _ => ["g1"]

/-- A caller-supplied individual for the constructor claims. -/
def suppliedInd : Individual := { net := 3, genotype := ["z"] }

/-! ### Shared lemmas -/

/-- With exactly two parents whose first genotype is non-empty, `recombine`
always raises the `TypeError` from subscripting the second parent object. -/
theorem recombine_pair_eq (g : Genetic) (p1 p2 : Individual) (n locus : Nat)
    (r : Rat) (h : p1.genotype ≠ []) :
    g.recombine [p1, p2] n locus r = Except.error Err.typeErrorNotSubscriptable := by
  have hL : ¬(p1.genotype.length = 0) := by simpa using h
  simp [Genetic.recombine, hL]

/-! ### C1 — mutation -/

/-- C1: the claim says `mutate(candidate, n_loci=1)` returns a mutated
candidate differing from the input in exactly one position, with a changed
gene there.  In the code the final statement
`mutant_individual.update_genotype(new_genotype=...)` calls the value of the
`update_genotype` property (the genotype list), raising `TypeError`, so
`mutate` never returns a candidate at all; moreover the replacement pool
`self.genome.difference(mutant_gene)` only removes the CHARACTERS of the gene,
so for multi-character genes the pool still contains the original gene
(second conjunct, with alphabet `{"ab", "cd"}` of size 2 and gene `"ab"`). -/
theorem mutate_never_returns_candidate :
    (∀ (g : Genetic) (ind : Individual) (n_loci : Nat) (loci pick : Nat → Nat),
      ind.genotype ≠ [] →
      g.mutate ind n_loci loci pick = Except.error Err.typeErrorNotCallable) ∧
    setDifferenceChars ["ab", "cd"] "ab" = ["ab", "cd"] := by
  constructor
  · intro g ind n_loci loci pick h
    have hL : ¬(ind.genotype.length = 0) := by simpa using h
    simp [Genetic.mutate, hL]
  · decide

/-- Witness for C1 at a concrete candidate and alphabet of size 2. -/
theorem mutate_never_returns_candidate_witness :
    Genetic.mutate { genome := ["ab", "cd"] } { net := 0, genotype := ["ab"] } 1
      (fun _ => 0) (fun _ => 0) = Except.error Err.typeErrorNotCallable :=
  mutate_never_returns_candidate.1 { genome := ["ab", "cd"] }
    { net := 0, genotype := ["ab"] } 1 (fun _ => 0) (fun _ => 0) (by decide)

/-! ### C2 — genotype replacement -/

/-- C2: the claim says the genotype setter fails with a `ValidationError` when
the externally supplied validity check rejects the new genotype.  The code
constructs the `ValueError` but never raises it (line 48 has no `raise`), so
the setter succeeds on EVERY new genotype, valid or not, overwriting the
genotype and refreshing the net (middle conjunct); concretely it accepts the
genotype `["x"]` that the fixture check `validLen2` rejects (outer conjuncts). -/
theorem update_genotype_silently_accepts_invalid :
    validLen2 ["x"] = false ∧
    (∀ (valid : List Gene → Bool) (toArch : List Gene → Arch) (oracle : Arch → Net)
        (ind : Individual) (newG : List Gene),
      Individual.update_genotype valid toArch oracle ind newG =
        Except.ok (Individual.update_net toArch oracle { ind with genotype := newG })) ∧
    Individual.update_genotype validLen2 toArchJoin oracleLen
        { net := 0, genotype := ["a", "b"] } ["x"] =
      Except.ok { net := 1, genotype := ["x"] } :=
  ⟨by decide, fun _ _ _ _ _ => rfl, rfl⟩

/-! ### C3 — recombination slices -/

/-- C3: the claim says the recombinant genotype is exactly a two-slice splice
of the parents.  The code slices the second parent OBJECT
(`individual2[recombination_locus:]`), which has no `__getitem__`, so every
two-parent recombination raises `TypeError` before any genotype is built and
no recombinant genotype ever exists. -/
theorem recombine_never_builds_genotype :
    ∀ (g : Genetic) (p1 p2 : Individual) (n locus : Nat) (r : Rat),
      p1.genotype ≠ [] →
      g.recombine [p1, p2] n locus r = Except.error Err.typeErrorNotSubscriptable :=
  fun g p1 p2 n locus r h => recombine_pair_eq g p1 p2 n locus r h

/-- Witness for C3 at two concrete equal-length parents. -/
theorem recombine_never_builds_genotype_witness :
    Genetic.recombine { genome := ["a", "b"] } [parentShort, { net := 2, genotype := ["d"] }]
      2 0 0 = Except.error Err.typeErrorNotSubscriptable :=
  recombine_never_builds_genotype { genome := ["a", "b"] } parentShort
    { net := 2, genotype := ["d"] } 2 0 0 (by decide)

/-! ### C4 — recombination error handling -/

/-- C4 counterexample: with exactly 2 parents of mismatched genotype lengths
(1 and 2), `recombine` does NOT fail with the validation error — the code
contains no length check at all; it fails with the `TypeError` from
subscripting the second parent. -/
theorem recombine_mismatched_lengths_counterexample :
    Genetic.recombine { genome := ["a", "b", "c"] } [parentShort, parentLong] 2 0 0 =
      Except.error Err.typeErrorNotSubscriptable ∧
    Err.typeErrorNotSubscriptable ≠ Err.valueErrorValidation :=
  ⟨recombine_pair_eq _ parentShort parentLong 2 0 0 (by decide), by decide⟩

/-- C4 amended: with a number of parents other than 2, `recombine` fails with
the arity `ValueError`; with exactly 2 parents it performs no length
validation — regardless of whether the lengths match, it fails with the
`TypeError` from subscripting the second parent (whenever the first parent's
genotype is non-empty). -/
theorem recombine_arity_and_no_length_check :
    ∀ (g : Genetic) (individuals : List Individual) (n locus : Nat) (r : Rat),
      (individuals.length ≠ 2 →
        g.recombine individuals n locus r = Except.error Err.valueErrorArity) ∧
      (∀ p1 p2, individuals = [p1, p2] → p1.genotype ≠ [] →
        g.recombine individuals n locus r =
          Except.error Err.typeErrorNotSubscriptable) := by
  intro g individuals n locus r
  constructor
  · intro h
    rw [Genetic.recombine.eq_def, if_pos h]
  · intro p1 p2 hmem h
    subst hmem
    exact recombine_pair_eq g p1 p2 n locus r h

/-- Witness for C4 at a 3-parent list (arity error) and a concrete mismatched
2-parent list (type error, not a validation error). -/
theorem recombine_arity_and_no_length_check_witness :
    Genetic.recombine { genome := ["a"] } [parentShort, parentShort, parentShort] 2 0 0 =
      Except.error Err.valueErrorArity ∧
    Genetic.recombine { genome := ["a"] } [parentShort, parentLong] 2 0 0 =
      Except.error Err.typeErrorNotSubscriptable :=
  ⟨(recombine_arity_and_no_length_check { genome := ["a"] }
      [parentShort, parentShort, parentShort] 2 0 0).1 (by decide),
   (recombine_arity_and_no_length_check { genome := ["a"] }
      [parentShort, parentLong] 2 0 0).2 parentShort parentLong rfl (by decide)⟩

/-! ### C8 — bulk fitness update -/

/-- C8 counterexample: on the two-member population `[indNet0, indNet1]` the
fixture metric fails on the second member, yet the first member's fitness HAS
been modified (0 became 7) when the failure propagates — `update_fitness` is
not all-or-nothing. -/
theorem update_fitness_partial_on_failure :
    Population.update_fitness { members := [indNet0, indNet1] } metricFail1 =
      ({ members := [{ indNet0 with fitness := 7 }, indNet1] }, some Err.metricError) ∧
    ({ indNet0 with fitness := 7 }).fitness ≠ indNet0.fitness :=
  ⟨rfl, by decide⟩

/-- The per-member effect of one loop iteration of `update_fitness`. -/
def apply_metric (metric : Net → Except Err Rat) (ind : Individual) : Individual :=
  match metric ind.net with
  | Except.ok v => { ind with fitness := v }
  | Except.error _ => ind

theorem update_fitness_loop_all_ok (metric : Net → Except Err Rat) :
    ∀ (l : List Individual), (∀ m ∈ l, ∃ v, metric m.net = Except.ok v) →
      update_fitness_loop metric l = (l.map (apply_metric metric), none) := by
  intro l h
  induction l with
  | nil => rfl
  | cons m rest ih =>
    obtain ⟨v, hv⟩ := h m (List.mem_cons_self m rest)
    simp [update_fitness_loop, Individual.update_fitness, hv, apply_metric,
      Except.map, ih (fun x hx => h x (List.mem_cons_of_mem m hx))]

theorem update_fitness_loop_err (metric : Net → Except Err Rat)
    (y : Individual) (ys : List Individual) (e : Err)
    (hy : metric y.net = Except.error e) :
    ∀ (xs : List Individual), (∀ m ∈ xs, ∃ v, metric m.net = Except.ok v) →
      update_fitness_loop metric (xs ++ y :: ys) =
        (xs.map (apply_metric metric) ++ y :: ys, some e) := by
  intro xs h
  induction xs with
  | nil => simp [update_fitness_loop, Individual.update_fitness, hy, Except.map]
  | cons m rest ih =>
    obtain ⟨v, hv⟩ := h m (List.mem_cons_self m rest)
    simp [update_fitness_loop, Individual.update_fitness, hv, apply_metric,
      Except.map, ih (fun x hx => h x (List.mem_cons_of_mem m hx))]

/-- C8 amended: `update_fitness` walks the members in order, mutating each in
place.  If the metric succeeds everywhere, every member's fitness is updated
and no error is reported; if it first fails on member `y`, the members before
`y` already carry their new fitness while `y` and the rest are untouched, and
the failure propagates — a partial update, not all-or-nothing. -/
theorem update_fitness_sequential :
    ∀ (pop : Population) (metric : Net → Except Err Rat),
      ((∀ m ∈ pop.members, ∃ v, metric m.net = Except.ok v) →
        Population.update_fitness pop metric =
          ({ pop with members := pop.members.map (apply_metric metric) }, none)) ∧
      (∀ (xs : List Individual) (y : Individual) (ys : List Individual) (e : Err),
        pop.members = xs ++ y :: ys →
        (∀ m ∈ xs, ∃ v, metric m.net = Except.ok v) →
        metric y.net = Except.error e →
        Population.update_fitness pop metric =
          ({ pop with members := xs.map (apply_metric metric) ++ y :: ys }, some e)) := by
  intro pop metric
  constructor
  · intro h
    simp [Population.update_fitness, update_fitness_loop_all_ok metric pop.members h]
  · intro xs y ys e hmem hxs hy
    simp [Population.update_fitness, hmem, update_fitness_loop_err metric y ys e hy xs hxs]

/-- Witness for C8 amended at the two-member fixture population. -/
theorem update_fitness_sequential_witness :
    Population.update_fitness { members := [indNet0] } metricFail1 =
      ({ members := [indNet0].map (apply_metric metricFail1) }, none) ∧
    Population.update_fitness { members := [indNet0, indNet1] } metricFail1 =
      ({ members := [indNet0].map (apply_metric metricFail1) ++ indNet1 :: [] },
        some Err.metricError) :=
  ⟨(update_fitness_sequential { members := [indNet0] } metricFail1).1
      (by intro m hm; simp at hm; subst hm; exact ⟨7, rfl⟩),
   (update_fitness_sequential { members := [indNet0, indNet1] } metricFail1).2
      [indNet0] indNet1 [] Err.metricError rfl
      (by intro m hm; simp at hm; subst hm; exact ⟨7, rfl⟩) rfl⟩

/-! ### C5 and C6 — score normalization -/

theorem except_ok_bind {α β : Type} (a : α) (k : α → Except Err β) :
    (Except.ok a >>= k) = k a := rfl

theorem except_error_bind {α β : Type} (e : Err) (k : α → Except Err β) :
    ((Except.error e : Except Err α) >>= k) = Except.error e := rfl

theorem mapExcept_error_head {α β : Type} {f : α → Except Err β} {x : α} {e : Err}
    (xs : List α) (hx : f x = Except.error e) :
    mapExcept f (x :: xs) = Except.error e := by
  simp only [mapExcept]
  rw [hx]
  rfl

theorem mapExcept_ok_of_forall {α β : Type} {f : α → Except Err β} {g : α → β} :
    ∀ (l : List α), (∀ x ∈ l, f x = Except.ok (g x)) →
      mapExcept f l = Except.ok (l.map g) := by
  intro l h
  induction l with
  | nil => rfl
  | cons x xs ih =>
    simp only [mapExcept, h x (List.mem_cons_self x xs),
      ih (fun z hz => h z (List.mem_cons_of_mem x hz)), except_ok_bind, List.map_cons]

theorem members_setExtreme (pop : Population) (s : String) (mn mx : Rat) :
    (setExtreme pop s mn mx).members = pop.members := rfl

theorem getExtremes_setExtreme (pop : Population) (s : String) (mn mx : Rat) :
    getExtremes (setExtreme pop s mn mx) s = some (mn, mx) := by
  simp [getExtremes, setExtreme, List.find?]

theorem head_getLast_of_all_eq {l : List Rat} {c : Rat} :
    l ≠ [] → (∀ x ∈ l, x = c) → l.head? = some c ∧ l.getLast? = some c := by
  induction l with
  | nil => intro h; exact absurd rfl h
  | cons a t ih =>
    intro _ h
    refine ⟨by simp [h a (List.mem_cons_self a t)], ?_⟩
    cases t with
    | nil => simp [h a (List.mem_cons_self a [])]
    | cons b u =>
      rw [List.getLast?_cons_cons]
      exact (ih (by simp) (fun x hx => h x (List.mem_cons_of_mem a hx))).2

/-- On a non-empty population whose members all carry the same value `c` of the
score, `set_extremes` stores `(c, c)` as the cached extremes. -/
theorem set_extremes_const {pop : Population} {s : String} {c : Rat}
    (hne : pop.members ≠ []) (hall : ∀ m ∈ pop.members, getScore m s = some c) :
    pop.set_extremes s = Except.ok (setExtreme pop s c c) := by
  rw [Population.set_extremes]
  have hvals : mapExcept (fun m => match getScore m s with
      | some v => Except.ok v
      | none => Except.error Err.attributeError) pop.members =
      Except.ok (pop.members.map (fun _ => c)) :=
    mapExcept_ok_of_forall pop.members (fun m hm => by rw [hall m hm])
  rw [hvals, except_ok_bind]
  have hperm := List.mergeSort_perm (pop.members.map (fun _ => c))
    (fun x y => decide (x ≤ y))
  have hlen := hperm.length_eq
  have hne' : (pop.members.map (fun _ => c)).mergeSort (fun x y => decide (x ≤ y)) ≠ [] := by
    intro hnil
    rw [hnil] at hlen
    simp at hlen
    exact hne (List.length_eq_zero.mp hlen.symm)
  have hallc : ∀ x ∈ (pop.members.map (fun _ => c)).mergeSort (fun x y => decide (x ≤ y)),
      x = c := by
    intro x hx
    have := List.mem_mergeSort.mp hx
    simp only [List.mem_map] at this
    obtain ⟨_, _, he⟩ := this
    exact he.symm
  obtain ⟨hh, hl⟩ := head_getLast_of_all_eq hne' hallc
  simp only [hh, hl]

/-- C5: the claim says a degenerate range (all members sharing the same value
of the named score) either yields a defined constant or raises the dedicated
degenerate-range error, but never an unhandled division error.  The code
caches extremes with `max = min = c` and then evaluates
`(v - min) / (max - min)`, whose zero denominator raises `ZeroDivisionError` —
exactly the unhandled division error the claim excludes (the `try` block only
catches `AttributeError`). -/
theorem normalize_scores_degenerate_raises :
    ∀ (pop : Population) (s : String) (c : Rat) (inplace : Bool),
      getExtremes pop s = none →
      pop.members ≠ [] →
      (∀ m ∈ pop.members, getScore m s = some c) →
      pop.normalize_scores s inplace = Except.error Err.zeroDivisionError := by
  intro pop s c inplace hext hne hall
  obtain ⟨m0, rest, hm⟩ : ∃ m0 rest, pop.members = m0 :: rest := by
    cases hmm : pop.members with
    | nil => exact absurd hmm hne
    | cons x t => exact ⟨x, t, rfl⟩
  have hmm0 : minmax_individual s c c m0 = Except.error Err.zeroDivisionError := by
    have h0 := hall m0 (by rw [hm]; exact List.mem_cons_self _ _)
    simp [minmax_individual, h0]
  have hcached : normalize_scores_cached (setExtreme pop s c c) s true c c =
      Except.error Err.zeroDivisionError := by
    rw [normalize_scores_cached, members_setExtreme, hm,
      mapExcept_error_head rest hmm0]
    rfl
  rw [Population.normalize_scores.eq_def, hext]
  rw [set_extremes_const hne hall, except_ok_bind, getExtremes_setExtreme]
  simp only [hcached, except_error_bind]

/-- Witness for C5 at a concrete two-member population whose score `s` is 2
everywhere, with the extremes not yet cached. -/
theorem normalize_scores_degenerate_raises_witness :
    Population.normalize_scores
        { members := [{ net := 0, genotype := ["a"], scores := [("s", 2)] },
                      { net := 1, genotype := ["b"], scores := [("s", 2)] }] }
        "s" true = Except.error Err.zeroDivisionError :=
  normalize_scores_degenerate_raises
    { members := [{ net := 0, genotype := ["a"], scores := [("s", 2)] },
                  { net := 1, genotype := ["b"], scores := [("s", 2)] }] }
    "s" 2 true (by decide) (by decide) (by decide)

/-- Ascending sort of an already-sorted pair of score values. -/
theorem mergeSort_pair_le {a b : Rat} (hab : a ≤ b) :
    [a, b].mergeSort (fun x y => decide (x ≤ y)) = [a, b] :=
  List.mergeSort_of_sorted (List.pairwise_pair.mpr (decide_eq_true hab))

/-- On a two-member population with score values `a ≤ b`, `set_extremes`
stores `(a, b)`. -/
theorem set_extremes_two {pop : Population} {s : String} {m1 m2 : Individual}
    {a b : Rat} (hm : pop.members = [m1, m2]) (h1 : getScore m1 s = some a)
    (h2 : getScore m2 s = some b) (hab : a ≤ b) :
    pop.set_extremes s = Except.ok (setExtreme pop s a b) := by
  rw [Population.set_extremes, hm]
  have hvals : mapExcept (fun m => match getScore m s with
      | some v => Except.ok v
      | none => Except.error Err.attributeError) [m1, m2] =
      Except.ok [a, b] := by
    simp only [mapExcept, h1, h2, except_ok_bind]
  rw [hvals, except_ok_bind, mergeSort_pair_le hab]
  rfl

/-- C6: the claim says `normalize_scores(score, in_place=False)` leaves the
live population untouched and returns the normalized copies, including on the
first use when the extremes are computed lazily.  On that first use the
`AttributeError` handler re-invokes `normalize_scores` WITHOUT the `inplace`
argument, so the recursive call runs with the default `inplace=True`: the live
member list is replaced with the normalized copies and `None` is returned to
the caller instead of the copies. -/
theorem normalize_scores_first_use_ignores_inplace :
    ∀ (pop : Population) (s : String) (m1 m2 : Individual) (a b : Rat),
      pop.members = [m1, m2] →
      getExtremes pop s = none →
      getScore m1 s = some a →
      getScore m2 s = some b →
      a < b →
      pop.normalize_scores s false =
        Except.ok ((setExtreme pop s a b).update_population
          [setScore m1 s 0, setScore m2 s 1], none) := by
  intro pop s m1 m2 a b hm hext h1 h2 hab
  have hba : b - a ≠ 0 := sub_ne_zero.mpr hab.ne'
  have hmm1 : minmax_individual s a b m1 = Except.ok (setScore m1 s 0) := by
    simp [minmax_individual, h1, hba, sub_self, zero_div]
  have hmm2 : minmax_individual s a b m2 = Except.ok (setScore m2 s 1) := by
    simp [minmax_individual, h2, hba, div_self hba]
  have hcached : normalize_scores_cached (setExtreme pop s a b) s true a b =
      Except.ok ((setExtreme pop s a b).update_population
        [setScore m1 s 0, setScore m2 s 1], none) := by
    rw [normalize_scores_cached, members_setExtreme, hm]
    have hmapped : mapExcept (minmax_individual s a b) [m1, m2] =
        Except.ok [setScore m1 s 0, setScore m2 s 1] := by
      simp only [mapExcept, hmm1, hmm2, except_ok_bind]
    rw [hmapped, except_ok_bind]
    rfl
  rw [Population.normalize_scores.eq_def, hext]
  rw [set_extremes_two hm h1 h2 hab.le, except_ok_bind, getExtremes_setExtreme]
  simp only [hcached, except_ok_bind]

/-- Witness for C6 at a concrete two-member population with score values 2 and
4 and uncached extremes. -/
theorem normalize_scores_first_use_ignores_inplace_witness :
    Population.normalize_scores
        { members := [{ net := 0, genotype := ["a"], scores := [("s", 2)] },
                      { net := 1, genotype := ["b"], scores := [("s", 4)] }] }
        "s" false =
      Except.ok ((setExtreme
          { members := [{ net := 0, genotype := ["a"], scores := [("s", 2)] },
                        { net := 1, genotype := ["b"], scores := [("s", 4)] }] }
          "s" 2 4).update_population
        [setScore { net := 0, genotype := ["a"], scores := [("s", 2)] } "s" 0,
         setScore { net := 1, genotype := ["b"], scores := [("s", 4)] } "s" 1], none) :=
  normalize_scores_first_use_ignores_inplace
    { members := [{ net := 0, genotype := ["a"], scores := [("s", 2)] },
                  { net := 1, genotype := ["b"], scores := [("s", 4)] }] }
    "s" { net := 0, genotype := ["a"], scores := [("s", 2)] }
    { net := 1, genotype := ["b"], scores := [("s", 4)] } 2 4
    rfl (by decide) (by decide) (by decide) (by decide)

/-! ### C9 — tournament selection -/

/-- C9: on any non-empty population, a tournament with `tournament_size = 5`
succeeds and returns exactly 5 candidates, each drawn (with replacement) from
the population's members. -/
theorem tournament_with_replacement :
    ∀ (genome : List Gene) (cp : Rat) (population : List Individual)
      (draws : Nat → Nat),
      population ≠ [] →
      ∃ ts,
        Genetic.tournament
          { genome := genome, tournament_size := 5, cross_probability := cp }
          population draws = Except.ok ts ∧
        ts.length = 5 ∧ ∀ x ∈ ts, x ∈ population := by
  intro genome cp population draws h
  have hne : ¬(population.length = 0) := by simpa using h
  simp only [Genetic.tournament, dif_neg hne]
  refine ⟨_, rfl, by simp, ?_⟩
  intro x hx
  simp only [List.mem_map, List.mem_range] at hx
  obtain ⟨i, _, rfl⟩ := hx
  exact List.get_mem _ _ _

/-- Witness for C9 at a concrete population of size 3. -/
theorem tournament_with_replacement_witness :
    ∃ ts,
      Genetic.tournament
        { genome := ["a"], tournament_size := 5, cross_probability := (1 : Rat) / 2 }
        [indNet0, indNet1, suppliedInd] (fun i => i) = Except.ok ts ∧
      ts.length = 5 ∧ ∀ x ∈ ts, x ∈ [indNet0, indNet1, suppliedInd] :=
  tournament_with_replacement ["a"] ((1 : Rat) / 2) [indNet0, indNet1, suppliedInd]
    (fun i => i) (by decide)

/-! ### C10 — Population constructor truthiness -/

/-- C10 counterexample: the constructor's branches are the OPPOSITE of the
claim.  A truthy (non-empty) supplied collection is ignored and a fresh
population is generated from the oracle (first two conjuncts: the stored
value is the generated one, which differs from the supplied collection), and
a falsy empty collection IS stored as given, so an intentionally empty
population can be created (last conjunct). -/
theorem population_init_truthiness_counterexample :
    population_init oracleFixed archToGenoFixed (InitPopulation.coll [suppliedInd]) =
      InitPopulation.coll (generate_population oracleFixed archToGenoFixed) ∧
    generate_population oracleFixed archToGenoFixed ≠ [suppliedInd] ∧
    population_init oracleFixed archToGenoFixed (InitPopulation.coll []) =
      InitPopulation.coll [] :=
  ⟨rfl, by decide, rfl⟩

/-- C10 amended: for every TRUTHY `init_population` (True, or any non-empty
collection) the constructor ignores the supplied value and stores a fresh
population generated from the oracle (requesting 20 samples; the size is
whatever the oracle returns), so a non-empty collection can never be stored
as given; for every FALSY value (False, or an empty collection) the falsy
value itself is stored, unchecked. -/
theorem population_init_branches :
    ∀ (oracle : Nat → List Net × List Arch) (a2g : Arch → List Gene)
      (init : InitPopulation),
      (init.truthy = true →
        population_init oracle a2g init =
          InitPopulation.coll (generate_population oracle a2g)) ∧
      (init.truthy = false → population_init oracle a2g init = init) := by
  intro oracle a2g init
  constructor <;> intro h <;> simp [population_init, h]

/-! ### C7 — ranking -/

theorem fitnessDescKey_trans : ∀ (a b c : Nat × Individual),
    fitnessDescKey a b → fitnessDescKey b c → fitnessDescKey a c := by
  intro a b c hab hbc
  simp only [fitnessDescKey, decide_eq_true_eq] at hab hbc ⊢
  exact le_trans hbc hab

theorem fitnessDescKey_total : ∀ (a b : Nat × Individual),
    fitnessDescKey a b || fitnessDescKey b a := by
  intro a b
  simp only [fitnessDescKey, Bool.or_eq_true, decide_eq_true_eq]
  exact le_total _ _

theorem rankedSort_perm (pop : Population) :
    (rankedSort pop).Perm pop.members.enum :=
  List.mergeSort_perm _ _

theorem rankedSort_length (pop : Population) :
    (rankedSort pop).length = pop.members.length := by
  simp [rankedSort]

theorem rankedSort_fst_perm (pop : Population) :
    ((rankedSort pop).map Prod.fst).Perm (List.range pop.members.length) := by
  have h := (rankedSort_perm pop).map Prod.fst
  rwa [List.enum_map_fst] at h

theorem rankedSort_nodup_fst (pop : Population) :
    ((rankedSort pop).map Prod.fst).Nodup :=
  ((rankedSort_fst_perm pop).nodup_iff).mpr (List.nodup_range _)

theorem rankedSort_sorted (pop : Population) :
    (rankedSort pop).Pairwise (fun a b => fitnessDescKey a b = true) :=
  List.sorted_mergeSort fitnessDescKey_trans fitnessDescKey_total _

/-- In a list of index-tagged individuals with pairwise distinct tags, the
position of the element sitting at position `k` is recovered by `rankOf` from
its tag. -/
theorem rankOf_get (s : List (Nat × Individual)) (hnd : (s.map Prod.fst).Nodup) :
    ∀ (k : Nat) (hk : k < s.length), rankOf s ((s.get ⟨k, hk⟩).1) = k := by
  induction s with
  | nil => intro k hk; simp at hk
  | cons p t ih =>
    intro k hk
    have hnd2 : (p.1 :: t.map Prod.fst).Nodup := by simpa using hnd
    match k with
    | 0 => simp [rankOf]
    | Nat.succ j =>
      have hj : j < t.length := by simpa using hk
      have hmemfst : (t.get ⟨j, hj⟩).1 ∈ t.map Prod.fst :=
        List.mem_map_of_mem Prod.fst (List.get_mem t j hj)
      have hne : ¬(p.1 = (t.get ⟨j, hj⟩).1) := by
        intro he
        exact (List.nodup_cons.mp hnd2).1 (he ▸ hmemfst)
      have hstep : (p :: t).get ⟨j + 1, hk⟩ = t.get ⟨j, hj⟩ := rfl
      rw [hstep, rankOf, if_neg hne, ih (List.nodup_cons.mp hnd2).2 j hj]

/-- Every tag occurring in the list is sent by `rankOf` to a valid position
carrying that tag. -/
theorem exists_rank (s : List (Nat × Individual)) (hnd : (s.map Prod.fst).Nodup)
    (i : Nat) (hi : i ∈ s.map Prod.fst) :
    ∃ (k : Fin s.length), rankOf s i = k.val ∧ (s.get k).1 = i := by
  obtain ⟨p, hp, he⟩ := List.mem_map.mp hi
  obtain ⟨n, hn, hg⟩ := List.getElem_of_mem hp
  have hget : (s.get ⟨n, hn⟩).1 = i := by
    rw [show s.get ⟨n, hn⟩ = p from hg, he]
  refine ⟨⟨n, hn⟩, ?_, hget⟩
  rw [← hget]
  exact rankOf_get s hnd n hn

/-- Positions of the two elements of an embedded pair: if `[x, y]` is a
sublist of `s` then `x` and `y` occur at positions `p < q` of `s`. -/
theorem pair_sublist_get {α : Type} {x y : α} :
    ∀ {s : List α}, [x, y].Sublist s →
      ∃ (p q : Fin s.length), p.val < q.val ∧ s.get p = x ∧ s.get q = y := by
  intro s h
  induction s with
  | nil => simp at h
  | cons z t ih =>
    cases h with
    | cons _ h2 =>
      obtain ⟨p, q, hpq, hx, hy⟩ := ih h2
      refine ⟨⟨p.val + 1, Nat.succ_lt_succ p.isLt⟩, ⟨q.val + 1, Nat.succ_lt_succ q.isLt⟩,
        Nat.succ_lt_succ hpq, ?_, ?_⟩
      · simpa using hx
      · simpa using hy
    | cons₂ _ h2 =>
      obtain ⟨m, hm, hg⟩ := List.getElem_of_mem (List.singleton_sublist.mp h2)
      refine ⟨⟨0, by simp⟩, ⟨m + 1, by simpa using hm⟩, by simp, rfl, ?_⟩
      simpa using hg

theorem update_ranking_length (pop : Population) :
    (Population.update_ranking pop).members.length = pop.members.length := by
  simp [Population.update_ranking]

theorem update_ranking_get (pop : Population) (k : Nat)
    (hk : k < (Population.update_ranking pop).members.length)
    (hk2 : k < pop.members.length) :
    (Population.update_ranking pop).members.get ⟨k, hk⟩ =
      Individual.update_ranking (pop.members.get ⟨k, hk2⟩)
        (rankOf (rankedSort pop) k) := by
  simp [Population.update_ranking, List.getElem_enum]

theorem update_ranking_rank (pop : Population) (k : Nat)
    (hk : k < (Population.update_ranking pop).members.length)
    (hk2 : k < pop.members.length) :
    ((Population.update_ranking pop).members.get ⟨k, hk⟩).rank =
      rankOf (rankedSort pop) k := by
  rw [update_ranking_get pop k hk hk2]
  rfl

theorem update_ranking_fitness (pop : Population) (k : Nat)
    (hk : k < (Population.update_ranking pop).members.length)
    (hk2 : k < pop.members.length) :
    ((Population.update_ranking pop).members.get ⟨k, hk⟩).fitness =
      (pop.members.get ⟨k, hk2⟩).fitness := by
  rw [update_ranking_get pop k hk hk2]
  rfl

/-- The index-tagged member `(l, members[l])` occurs in the ranked sort. -/
theorem enum_pair_mem_rankedSort (pop : Population) (l : Nat)
    (hl : l < pop.members.length) :
    ((l, pop.members.get ⟨l, hl⟩) : Nat × Individual) ∈ rankedSort pop := by
  apply (rankedSort_perm pop).mem_iff.mpr
  have he : pop.members.enum.get ⟨l, by simpa using hl⟩ =
      (l, pop.members.get ⟨l, hl⟩) := by
    simp [List.getElem_enum]
  rw [← he]
  exact List.get_mem _ _ _

/-- C7: `update_ranking` on a population of N members (i) keeps the member
count, (ii) assigns every member a rank below N, (iii) assigns pairwise
distinct ranks, (iv) leaves every member's fitness unchanged, (v) assigns
rank 0 to a member of maximal fitness and (vi) rank N-1 to a member of
minimal fitness, and (vii) breaks ties among equal fitness values by input
order (the earlier member receives the strictly smaller rank), matching the
stable descending sort of CPython's `sorted(..., reverse=True)`. -/
theorem update_ranking_spec (pop : Population) :
    (Population.update_ranking pop).members.length = pop.members.length ∧
    (∀ (k : Nat) (hk : k < (Population.update_ranking pop).members.length),
      ((Population.update_ranking pop).members.get ⟨k, hk⟩).rank <
        pop.members.length) ∧
    (∀ (k l : Nat) (hk : k < (Population.update_ranking pop).members.length)
        (hl : l < (Population.update_ranking pop).members.length),
      k ≠ l →
      ((Population.update_ranking pop).members.get ⟨k, hk⟩).rank ≠
        ((Population.update_ranking pop).members.get ⟨l, hl⟩).rank) ∧
    (∀ (k : Nat) (hk : k < (Population.update_ranking pop).members.length)
        (hk2 : k < pop.members.length),
      ((Population.update_ranking pop).members.get ⟨k, hk⟩).fitness =
        (pop.members.get ⟨k, hk2⟩).fitness) ∧
    (pop.members ≠ [] →
      ∃ (k : Nat) (hk : k < (Population.update_ranking pop).members.length),
        ((Population.update_ranking pop).members.get ⟨k, hk⟩).rank = 0 ∧
        ∀ (l : Nat) (hl : l < (Population.update_ranking pop).members.length),
          ((Population.update_ranking pop).members.get ⟨l, hl⟩).fitness ≤
            ((Population.update_ranking pop).members.get ⟨k, hk⟩).fitness) ∧
    (pop.members ≠ [] →
      ∃ (k : Nat) (hk : k < (Population.update_ranking pop).members.length),
        ((Population.update_ranking pop).members.get ⟨k, hk⟩).rank =
          pop.members.length - 1 ∧
        ∀ (l : Nat) (hl : l < (Population.update_ranking pop).members.length),
          ((Population.update_ranking pop).members.get ⟨k, hk⟩).fitness ≤
            ((Population.update_ranking pop).members.get ⟨l, hl⟩).fitness) ∧
    (∀ (k l : Nat) (hk : k < (Population.update_ranking pop).members.length)
        (hl : l < (Population.update_ranking pop).members.length),
      k < l →
      ((Population.update_ranking pop).members.get ⟨k, hk⟩).fitness =
        ((Population.update_ranking pop).members.get ⟨l, hl⟩).fitness →
      ((Population.update_ranking pop).members.get ⟨k, hk⟩).rank <
        ((Population.update_ranking pop).members.get ⟨l, hl⟩).rank) := by
  have hnd := rankedSort_nodup_fst pop
  have hmemfst : ∀ (k : Nat), k < pop.members.length →
      k ∈ (rankedSort pop).map Prod.fst := fun k hk =>
    (rankedSort_fst_perm pop).mem_iff.mpr (List.mem_range.mpr hk)
  refine ⟨update_ranking_length pop, ?_, ?_, ?_, ?_, ?_, ?_⟩
  · -- (ii) ranks below N
    intro k hk
    have hk2 : k < pop.members.length := by
      rw [← update_ranking_length pop]; exact hk
    rw [update_ranking_rank pop k hk hk2]
    obtain ⟨q, hq, _⟩ := exists_rank _ hnd k (hmemfst k hk2)
    rw [hq, ← rankedSort_length pop]
    exact q.isLt
  · -- (iii) distinct ranks
    intro k l hk hl hkl heq
    have hk2 : k < pop.members.length := by
      rw [← update_ranking_length pop]; exact hk
    have hl2 : l < pop.members.length := by
      rw [← update_ranking_length pop]; exact hl
    rw [update_ranking_rank pop k hk hk2, update_ranking_rank pop l hl hl2] at heq
    obtain ⟨q1, hq1, hg1⟩ := exists_rank _ hnd k (hmemfst k hk2)
    obtain ⟨q2, hq2, hg2⟩ := exists_rank _ hnd l (hmemfst l hl2)
    have hq12 : q1 = q2 := Fin.ext (by rw [← hq1, ← hq2, heq])
    exact hkl (by rw [← hg1, ← hg2, hq12])
  · -- (iv) fitness preserved
    intro k hk hk2
    exact update_ranking_fitness pop k hk hk2
  · -- (v) rank 0 is maximal
    intro hne
    have hN : 0 < pop.members.length := List.length_pos.mpr hne
    have h0 : 0 < (rankedSort pop).length := by
      rw [rankedSort_length]; exact hN
    have hp0mem : (rankedSort pop).get ⟨0, h0⟩ ∈ pop.members.enum :=
      (rankedSort_perm pop).mem_iff.mp (List.get_mem _ _ _)
    have hk0 : ((rankedSort pop).get ⟨0, h0⟩).1 < pop.members.length :=
      List.fst_lt_of_mem_enum hp0mem
    have hsnd : ((rankedSort pop).get ⟨0, h0⟩).2 =
        pop.members.get ⟨((rankedSort pop).get ⟨0, h0⟩).1, hk0⟩ :=
      List.snd_eq_of_mem_enum hp0mem
    have hkout : ((rankedSort pop).get ⟨0, h0⟩).1 <
        (Population.update_ranking pop).members.length := by
      rw [update_ranking_length pop]; exact hk0
    refine ⟨((rankedSort pop).get ⟨0, h0⟩).1, hkout, ?_, ?_⟩
    · rw [update_ranking_rank pop _ hkout hk0]
      exact rankOf_get _ hnd 0 h0
    · intro l hl
      have hl2 : l < pop.members.length := by
        rw [← update_ranking_length pop]; exact hl
      rw [update_ranking_fitness pop l hl hl2,
        update_ranking_fitness pop _ hkout hk0]
      obtain ⟨m, hm, hgm⟩ := List.getElem_of_mem (enum_pair_mem_rankedSort pop l hl2)
      have hgm2 : (rankedSort pop).get ⟨m, hm⟩ = (l, pop.members.get ⟨l, hl2⟩) := hgm
      rcases Nat.eq_zero_or_pos m with hm0 | hmpos
      · subst hm0
        have h2 : pop.members.get ⟨l, hl2⟩ = ((rankedSort pop).get ⟨0, h0⟩).2 := by
          rw [hgm2]
        rw [h2, hsnd]
      · have hpair := List.pairwise_iff_getElem.mp (rankedSort_sorted pop)
          0 m h0 hm hmpos
        have hle : ((rankedSort pop).get ⟨m, hm⟩).2.fitness ≤
            ((rankedSort pop).get ⟨0, h0⟩).2.fitness := by
          simpa [fitnessDescKey] using hpair
        rw [hgm2] at hle
        rw [← hsnd]
        exact hle
  · -- (vi) rank N-1 is minimal
    intro hne
    have hN : 0 < pop.members.length := List.length_pos.mpr hne
    have hS : 0 < (rankedSort pop).length := by
      rw [rankedSort_length]; exact hN
    have hlast : (rankedSort pop).length - 1 < (rankedSort pop).length :=
      Nat.sub_lt hS Nat.one_pos
    have hpLmem : (rankedSort pop).get ⟨(rankedSort pop).length - 1, hlast⟩ ∈
        pop.members.enum :=
      (rankedSort_perm pop).mem_iff.mp (List.get_mem _ _ _)
    have hkL : ((rankedSort pop).get ⟨(rankedSort pop).length - 1, hlast⟩).1 <
        pop.members.length :=
      List.fst_lt_of_mem_enum hpLmem
    have hsnd : ((rankedSort pop).get ⟨(rankedSort pop).length - 1, hlast⟩).2 =
        pop.members.get
          ⟨((rankedSort pop).get ⟨(rankedSort pop).length - 1, hlast⟩).1, hkL⟩ :=
      List.snd_eq_of_mem_enum hpLmem
    have hkout : ((rankedSort pop).get ⟨(rankedSort pop).length - 1, hlast⟩).1 <
        (Population.update_ranking pop).members.length := by
      rw [update_ranking_length pop]; exact hkL
    refine ⟨((rankedSort pop).get ⟨(rankedSort pop).length - 1, hlast⟩).1, hkout,
      ?_, ?_⟩
    · rw [update_ranking_rank pop _ hkout hkL,
        rankOf_get _ hnd ((rankedSort pop).length - 1) hlast,
        rankedSort_length pop]
    · intro l hl
      have hl2 : l < pop.members.length := by
        rw [← update_ranking_length pop]; exact hl
      rw [update_ranking_fitness pop l hl hl2,
        update_ranking_fitness pop _ hkout hkL]
      obtain ⟨m, hm, hgm⟩ := List.getElem_of_mem (enum_pair_mem_rankedSort pop l hl2)
      have hgm2 : (rankedSort pop).get ⟨m, hm⟩ = (l, pop.members.get ⟨l, hl2⟩) := hgm
      rcases Nat.lt_or_ge m ((rankedSort pop).length - 1) with hmlt | hmge
      · have hpair := List.pairwise_iff_getElem.mp (rankedSort_sorted pop)
          m ((rankedSort pop).length - 1) hm hlast hmlt
        have hle : ((rankedSort pop).get
              ⟨(rankedSort pop).length - 1, hlast⟩).2.fitness ≤
            ((rankedSort pop).get ⟨m, hm⟩).2.fitness := by
          simpa [fitnessDescKey] using hpair
        rw [hgm2] at hle
        rw [← hsnd]
        exact hle
      · have hmeq : m = (rankedSort pop).length - 1 := by omega
        subst hmeq
        have h2 : pop.members.get ⟨l, hl2⟩ =
            ((rankedSort pop).get ⟨(rankedSort pop).length - 1, hlast⟩).2 := by
          rw [hgm2]
        rw [h2, hsnd]
  · -- (vii) stability: earlier equal-fitness member gets the smaller rank
    intro k l hk hl hkl hfit
    have hk2 : k < pop.members.length := by
      rw [← update_ranking_length pop]; exact hk
    have hl2 : l < pop.members.length := by
      rw [← update_ranking_length pop]; exact hl
    rw [update_ranking_fitness pop k hk hk2, update_ranking_fitness pop l hl hl2]
      at hfit
    rw [update_ranking_rank pop k hk hk2, update_ranking_rank pop l hl hl2]
    have hsub : [((k, pop.members.get ⟨k, hk2⟩) : Nat × Individual),
        (l, pop.members.get ⟨l, hl2⟩)].Sublist pop.members.enum := by
      have hpair : ([⟨k, by simpa using hk2⟩, ⟨l, by simpa using hl2⟩] :
          List (Fin pop.members.enum.length)).Pairwise (· < ·) :=
        List.pairwise_pair.mpr (Fin.mk_lt_mk.mpr hkl)
      have hmap := List.map_getElem_sublist (l := pop.members.enum) hpair
      simpa [List.getElem_enum] using hmap
    have hdesc : fitnessDescKey (k, pop.members.get ⟨k, hk2⟩)
        (l, pop.members.get ⟨l, hl2⟩) = true :=
      decide_eq_true (le_of_eq hfit.symm)
    have hsorted : [((k, pop.members.get ⟨k, hk2⟩) : Nat × Individual),
        (l, pop.members.get ⟨l, hl2⟩)].Sublist (rankedSort pop) :=
      List.pair_sublist_mergeSort fitnessDescKey_trans fitnessDescKey_total
        hdesc hsub
    obtain ⟨p, q, hpq, hgp, hgq⟩ := pair_sublist_get hsorted
    have hrk : rankOf (rankedSort pop) k = p.val := by
      have := rankOf_get _ hnd p.val p.isLt
      rw [show ((rankedSort pop).get ⟨p.val, p.isLt⟩) =
        ((k, pop.members.get ⟨k, hk2⟩) : Nat × Individual) from hgp] at this
      exact this.symm ▸ this
    have hrl : rankOf (rankedSort pop) l = q.val := by
      have := rankOf_get _ hnd q.val q.isLt
      rw [show ((rankedSort pop).get ⟨q.val, q.isLt⟩) =
        ((l, pop.members.get ⟨l, hl2⟩) : Nat × Individual) from hgq] at this
      exact this.symm ▸ this
    rw [hrk, hrl]
    exact hpq

/-- Witness for C7 at a concrete three-member population with a tie. -/
theorem update_ranking_spec_witness :
    ∃ (k : Nat) (hk : k < (Population.update_ranking
        { members := [indNet0, indNet1, suppliedInd] }).members.length),
      ((Population.update_ranking
          { members := [indNet0, indNet1, suppliedInd] }).members.get
        ⟨k, hk⟩).rank = 0 ∧
      ∀ (l : Nat) (hl : l < (Population.update_ranking
          { members := [indNet0, indNet1, suppliedInd] }).members.length),
        ((Population.update_ranking
            { members := [indNet0, indNet1, suppliedInd] }).members.get
          ⟨l, hl⟩).fitness ≤
          ((Population.update_ranking
              { members := [indNet0, indNet1, suppliedInd] }).members.get
            ⟨k, hk⟩).fitness :=
  (update_ranking_spec { members := [indNet0, indNet1, suppliedInd] }).2.2.2.2.1
    (by decide)

/-- Witness for C10 amended at a non-empty supplied collection (truthy) and at
`False` (falsy). -/
theorem population_init_branches_witness :
    population_init oracleFixed archToGenoFixed (InitPopulation.coll [suppliedInd]) =
      InitPopulation.coll (generate_population oracleFixed archToGenoFixed) ∧
    population_init oracleFixed archToGenoFixed (InitPopulation.bool false) =
      InitPopulation.bool false :=
  ⟨(population_init_branches oracleFixed archToGenoFixed
      (InitPopulation.coll [suppliedInd])).1 (by decide),
   (population_init_branches oracleFixed archToGenoFixed
      (InitPopulation.bool false)).2 (by decide)⟩

end Genetics
